import Mathlib

/-!
A shallow embedding of the application-lifecycle core of the Smart Job
Search Bot: the deduplicating job store (`src/database/models.py`,
`src/database/repository.py`), the resume selector
(`src/resume_selector.py`) and the Easy Apply driving loop
(`src/linkedin/job_applier.py`).

Machine-level details irrelevant to the verified properties are modelled
abstractly: `datetime.utcnow()` becomes a monotone `Nat` clock carried by
the store, SQLite autoincrement ids become explicit `nextJobId` /
`nextAppId` counters, and the browser page driven by the applier becomes
an oracle describing what each query observes on each loop iteration.
-/

namespace SmartJobBot

/-- Python's `str.lower()` on the ASCII text the bot handles. -/
def strLower (s : String) : String := ⟨s.data.map Char.toLower⟩

/-- Python's substring test `needle in hay` on lists of characters. -/
def hasSubList (needle : List Char) : List Char → Bool
  | [] => needle.isEmpty
  | c :: rest => needle.isPrefixOf (c :: rest) || hasSubList needle rest

/-- Python's substring test `needle in hay` on strings. -/
def hasSub (needle hay : String) : Bool := hasSubList needle.data hay.data

/-- Python truthiness of an optional string (`if error_message:`):
`None` and the empty string are falsy. -/
def pyTruthy : Option String → Bool
  | none => false
  | some m => !(m == "")

/-- Python `x or ''` applied to an optional string. -/
def pyOrEmpty : Option String → String
  | none => ""
  | some m => m

/-- `ApplicationStatus` from `src/database/models.py` (lines 15-22). -/
inductive ApplicationStatus where
  | pending
  | applied
  | easy_apply
  | external
  | skipped
  | failed
deriving DecidableEq

/-- `status in [ApplicationStatus.APPLIED, ApplicationStatus.EASY_APPLY]`,
the success-terminal test used by `create_application` and
`update_application_status` in `src/database/repository.py`. -/
def isSuccess (st : ApplicationStatus) : Bool :=
  st == ApplicationStatus.applied || st == ApplicationStatus.easy_apply

/-- The `Job` row of `src/database/models.py` (the columns the verified
operations read; `scraped_at` is the abstract clock value at insertion). -/
structure Job where
  id : Nat
  linkedin_job_id : String
  title : String
  company : String
  description : Option String
  is_easy_apply : Bool
  scraped_at : Nat
deriving DecidableEq

/-- The `Application` row of `src/database/models.py`. -/
structure Application where
  id : Nat
  job_id : Nat
  status : ApplicationStatus
  applied_at : Option Nat
  cover_letter : Option String
  resume_used : Option String
  notes : Option String
  error_message : Option String
deriving DecidableEq

/-- A `job_data` dictionary as fed to `add_job` / `add_jobs_batch`. -/
structure JobData where
  linkedin_job_id : String
  title : String
  company : String
  description : Option String
  is_easy_apply : Bool
deriving DecidableEq

/-- The SQLite database behind `JobRepository`: the two tables, the
autoincrement counters and the abstract wall clock. -/
structure Store where
  jobs : List Job
  applications : List Application
  nextJobId : Nat
  nextAppId : Nat
  clock : Nat
deriving DecidableEq

/-- A freshly created database (`Base.metadata.create_all`). -/
def emptyStore : Store :=
  { jobs := [], applications := [], nextJobId := 1, nextAppId := 1, clock := 0 }

/-- `JobRepository.job_exists` (repository.py lines 36-41). -/
def job_exists (s : Store) (linkedin_job_id : String) : Bool :=
  s.jobs.any (fun j => j.linkedin_job_id == linkedin_job_id)

/-- The `Job(**job_data)` row built during an insert. -/
def mkJob (s : Store) (jd : JobData) : Job :=
  { id := s.nextJobId
    linkedin_job_id := jd.linkedin_job_id
    title := jd.title
    company := jd.company
    description := jd.description
    is_easy_apply := jd.is_easy_apply
    scraped_at := s.clock }

/-- The store after committing one new job row. -/
def insertJob (s : Store) (jd : JobData) : Store :=
  { s with
    jobs := s.jobs ++ [mkJob s jd]
    nextJobId := s.nextJobId + 1
    clock := s.clock + 1 }

/-- `JobRepository.add_job` (repository.py lines 43-53): returns the new
row, or `none` when a row with the same `linkedin_job_id` already exists. -/
def add_job (s : Store) (jd : JobData) : Option Job × Store :=
  if job_exists s jd.linkedin_job_id then (none, s)
  else (some (mkJob s jd), insertJob s jd)

/-- `JobRepository.add_jobs_batch` (repository.py lines 55-76): inserts the
dictionaries in order, skipping each whose `linkedin_job_id` is already
present (the session's autoflush makes rows added earlier in the same batch
visible to the duplicate check); returns the newly added rows. -/
def add_jobs_batch (s : Store) : List JobData → List Job × Store
  | [] => ([], s)
  | jd :: rest =>
    if job_exists s jd.linkedin_job_id then add_jobs_batch s rest
    else
      let p := add_jobs_batch (insertJob s jd) rest
      (mkJob s jd :: p.1, p.2)

/-- `JobRepository.create_application` (repository.py lines 125-149):
`applied_at` is set at creation exactly when the initial status is a
success terminal. -/
def create_application (s : Store) (job_id : Nat) (status : ApplicationStatus)
    (cover_letter resume_used notes : Option String) : Application × Store :=
  let app : Application :=
    { id := s.nextAppId
      job_id := job_id
      status := status
      applied_at := if isSuccess status then some s.clock else none
      cover_letter := cover_letter
      resume_used := resume_used
      notes := notes
      error_message := none }
  (app, { s with
          applications := s.applications ++ [app]
          nextAppId := s.nextAppId + 1
          clock := s.clock + 1 })

/-- The in-place mutation performed on the found row by
`update_application_status`: status always, `error_message` only when the
argument is truthy, `applied_at` only when the new status is a success
terminal. -/
def updatedApp (a : Application) (status : ApplicationStatus)
    (error_message : Option String) (now : Nat) : Application :=
  { a with
    status := status
    error_message := if pyTruthy error_message then error_message else a.error_message
    applied_at := if isSuccess status then some now else a.applied_at }

/-- `JobRepository.update_application_status` (repository.py lines
151-172): looks the row up by id; when absent it returns `none` and leaves
the store untouched, otherwise it commits the mutated row. -/
def update_application_status (s : Store) (application_id : Nat)
    (status : ApplicationStatus) (error_message : Option String) :
    Option Application × Store :=
  match s.applications.find? (fun a => a.id == application_id) with
  | none => (none, s)
  | some a =>
    let a' := updatedApp a status error_message s.clock
    (some a',
     { s with
       applications := s.applications.map
         (fun b => if b.id == application_id then a' else b)
       clock := s.clock + 1 })

/-- The status filter of the `applied_job_ids` subquery in
`get_unapplied_easy_apply_jobs` (repository.py lines 96-102). -/
def isAttempted (st : ApplicationStatus) : Bool :=
  st == ApplicationStatus.applied
    || st == ApplicationStatus.easy_apply
    || st == ApplicationStatus.skipped

/-- Insert a job into a list that is already sorted by `scraped_at`
descending (the `ORDER BY scraped_at DESC` of the query). -/
def insertDesc (j : Job) : List Job → List Job
  | [] => [j]
  | k :: ks => if k.scraped_at ≤ j.scraped_at then j :: k :: ks else k :: insertDesc j ks

/-- Sort a list of jobs by `scraped_at` descending. -/
def sortByScrapedDesc : List Job → List Job
  | [] => []
  | j :: js => insertDesc j (sortByScrapedDesc js)

/-- `JobRepository.get_unapplied_easy_apply_jobs` (repository.py lines
92-108): Easy Apply jobs whose id is in no application with status
applied, easy_apply or skipped, ordered by `scraped_at` descending,
limited. -/
def get_unapplied_easy_apply_jobs (s : Store) (limit : Nat) : List Job :=
  let applied_job_ids :=
    (s.applications.filter (fun a => isAttempted a.status)).map (fun a => a.job_id)
  (sortByScrapedDesc
    (s.jobs.filter
      (fun j => j.is_easy_apply && !(applied_job_ids.contains j.id)))).take limit

/-- Number of applications currently in a given status. -/
def countStatus (apps : List Application) (st : ApplicationStatus) : Nat :=
  (apps.filter (fun a => a.status == st)).length

/-- The dictionary returned by `JobRepository.get_application_stats`
(repository.py lines 192-214). -/
structure Stats where
  total_jobs : Nat
  total_applications : Nat
  applied : Nat
  easy_apply : Nat
  pending : Nat
  skipped : Nat
  failed : Nat
deriving DecidableEq

/-- `JobRepository.get_application_stats`: note there is no bucket for the
`external` status. -/
def get_application_stats (s : Store) : Stats :=
  { total_jobs := s.jobs.length
    total_applications := s.applications.length
    applied := countStatus s.applications ApplicationStatus.applied
    easy_apply := countStatus s.applications ApplicationStatus.easy_apply
    pending := countStatus s.applications ApplicationStatus.pending
    skipped := countStatus s.applications ApplicationStatus.skipped
    failed := countStatus s.applications ApplicationStatus.failed }

/-- Number of stored jobs carrying a given `linkedin_job_id`. -/
def countJobsWithId (s : Store) (linkedin_job_id : String) : Nat :=
  (s.jobs.filter (fun j => j.linkedin_job_id == linkedin_job_id)).length

/-- One insert against the store: `add_job` or `add_jobs_batch`. -/
inductive InsertOp where
  | single (jd : JobData)
  | batch (jds : List JobData)

/-- Effect of one insert operation on the store. -/
def applyInsert (s : Store) : InsertOp → Store
  | InsertOp.single jd => (add_job s jd).2
  | InsertOp.batch jds => (add_jobs_batch s jds).2

/-- A sequence of inserts, applied in order. -/
def runInserts (s : Store) (ops : List InsertOp) : Store :=
  ops.foldl applyInsert s

/-- One application-table operation: `create_application` or
`update_application_status`. -/
inductive AppOp where
  | create (job_id : Nat) (status : ApplicationStatus)
      (cover_letter resume_used notes : Option String)
  | setStatus (application_id : Nat) (status : ApplicationStatus)
      (error_message : Option String)

/-- Effect of one application operation on the store. -/
def applyAppOp (s : Store) : AppOp → Store
  | AppOp.create jid st cl ru n => (create_application s jid st cl ru n).2
  | AppOp.setStatus aid st err => (update_application_status s aid st err).2

/-- A sequence of application operations, applied in order. -/
def runAppOps (s : Store) (ops : List AppOp) : Store :=
  ops.foldl applyAppOp s

/-- A resume profile as held in `ResumeSelector.resume_profiles`
(`src/resume_selector.py`): file name, keyword list and weight. The weight
is a Python float carrying values such as `1.0`; it is modelled as a
rational. -/
structure ResumeProfile where
  name : String
  file : String
  keywords : List String
  weight : ℚ

/-- The loaded `ResumeSelector`: the resumes directory and the profiles
in insertion order (Python dicts preserve insertion order). -/
structure ResumeSelector where
  resumes_dir : String
  resume_profiles : List ResumeProfile

/-- `str(self.resumes_dir / file)`. -/
def pathOf (dir file : String) : String := dir ++ "/" ++ file

/-- The search text of `select_resume` (resume_selector.py line 83):
`f"{job_title} {job_description or ''} {company or ''}".lower()`. -/
def searchTextOf (job_title : String) (job_description company : Option String) :
    String :=
  strLower (job_title ++ " " ++ pyOrEmpty job_description ++ " " ++ pyOrEmpty company)

/-- The score of one profile (resume_selector.py lines 88-97): the number
of its keywords occurring, lowercased, as substrings of the search text,
times the profile's weight. -/
def profileScore (searchText : String) (p : ResumeProfile) : ℚ :=
  ((p.keywords.filter (fun k => hasSub (strLower k) searchText)).length : ℚ) * p.weight

/-- Python `max(scores, key=score)`: the first element of maximal score
(a later element replaces the champion only on a strictly greater score). -/
def maxByScore (x : ResumeProfile × ℚ) (xs : List (ResumeProfile × ℚ)) :
    ResumeProfile × ℚ :=
  xs.foldl (fun best y => if best.2 < y.2 then y else best) x

/-- `ResumeSelector.select_resume` (resume_selector.py lines 56-121):
`none` with no profiles; the single profile unconditionally when exactly
one is loaded; otherwise keyword scoring with fallback to the
first-loaded profile when no score is positive, and the first
highest-scoring profile otherwise. -/
def select_resume (rs : ResumeSelector) (job_title : String)
    (job_description company : Option String) : Option String :=
  match rs.resume_profiles with
  | [] => none
  | p :: rest =>
    if rest.isEmpty then some (pathOf rs.resumes_dir p.file)
    else
      let searchText := searchTextOf job_title job_description company
      let scores := (p :: rest).map (fun q => (q, profileScore searchText q))
      if scores.any (fun x => decide (0 < x.2)) then
        match scores with
        | [] => none
        | x :: xs => some (pathOf rs.resumes_dir (maxByScore x xs).1.file)
      else some (pathOf rs.resumes_dir p.file)

/-- What the applier's page queries observe during one iteration of the
`_complete_application_modal` loop (`src/linkedin/job_applier.py` lines
88-169): the inner text of the success indicator, of the primary
submit/review button and of the modal content when those selectors match,
and whether the next and dismiss buttons are present. -/
structure ModalObs where
  success_indicator : Option String
  submit_btn : Option String
  next_btn : Bool
  dismiss_btn : Bool
  modal_content : Option String
  error_elem : Option String

/-- The success-text test of the modal loop (job_applier.py line 104):
`"application sent" in text.lower() or "applied" in text.lower()`. -/
def isSuccessText (t : String) : Bool :=
  hasSub "application sent" (strLower t) || hasSub "applied" (strLower t)

/-- The modal-loop checks after the submit-button block: next button, then
dismiss button paired with an "application sent" modal content, then the
(outcome-neutral) error feedback check. `some b` means the Python loop
returns `b`, `none` means it falls through to the next iteration. -/
def modalIterTail (o : ModalObs) : Option Bool :=
  if o.next_btn then none
  else if o.dismiss_btn then
    match o.modal_content with
    | some c => if hasSub "application sent" (strLower c) then some true else none
    | none => none
  else none

/-- One iteration of the modal loop body: `some b` means the Python loop
returns `b` on this iteration, `none` means it falls through to the next
iteration (clicking next/continue/review, or matching nothing). -/
def modalIter (o : ModalObs) : Option Bool :=
  if (match o.success_indicator with
      | some t => isSuccessText t
      | none => false) then
    some true
  else
    match o.submit_btn with
    | some t =>
      if hasSub "submit" (strLower t) then some true
      else if hasSub "next" (strLower t) || hasSub "continue" (strLower t) then none
      else if hasSub "review" (strLower t) then none
      else modalIterTail o
    | none => modalIterTail o

/-- `max_steps = 10` (job_applier.py line 90). -/
def max_steps : Nat := 10

/-- The `while step < max_steps` loop of `_complete_application_modal`,
with the page modelled as one observation per iteration (`obs i` is what
iteration `i`, counting from 1, sees). -/
def modalLoop (obs : Nat → ModalObs) : Nat → Nat → Bool
  | _, 0 => false
  | stepsDone, fuel + 1 =>
    match modalIter (obs (stepsDone + 1)) with
    | some b => b
    | none => modalLoop obs (stepsDone + 1) fuel

/-- `JobApplier._complete_application_modal` (job_applier.py lines
88-169): drives the modal for at most `max_steps` iterations and returns
`false` (the exhausted outcome) when the bound is hit. -/
def complete_application_modal (obs : Nat → ModalObs) : Bool :=
  modalLoop obs 0 max_steps

/-- What the applier's page queries observe on a job page in
`apply_to_job` (job_applier.py lines 38-86): the inner text of the
already-applied indicator and of the Easy Apply button when those
selectors match, the modal behaviour after clicking, and whether any of
the page interactions raises (the `except` branch). -/
structure JobPageObs where
  already_applied : Option String
  easy_apply_btn : Option String
  modal : Nat → ModalObs
  raises : Bool

/-- `JobApplier.apply_to_job` (job_applier.py lines 38-86): `false` when
an exception is raised, when the page already signals an application, when
no Easy Apply button exists or when the button is not the Easy Apply
variant; otherwise the modal loop's outcome. -/
def apply_to_job (p : JobPageObs) : Bool :=
  if p.raises then false
  else if (match p.already_applied with
           | some t => hasSub "applied" (strLower t)
           | none => false) then false
  else
    match p.easy_apply_btn with
    | none => false
    | some t =>
      if !(hasSub "easy apply" (strLower t)) then false
      else complete_application_modal p.modal

/-- One iteration of the `apply_to_jobs` batch loop (job_applier.py lines
318-353) for a single job: create a pending Application (with the chosen
resume), run `apply_to_job`, and write the terminal status back —
`easy_apply` on success, `failed` (with a fixed error message) otherwise. -/
def process_job (s : Store) (job : Job) (page : JobPageObs)
    (resume_to_use : Option String) : Store :=
  let p := create_application s job.id ApplicationStatus.pending none resume_to_use none
  if apply_to_job page then
    (update_application_status p.2 p.1.id ApplicationStatus.easy_apply none).2
  else
    (update_application_status p.2 p.1.id ApplicationStatus.failed
      (some "Application could not be completed")).2

/-- The listing is not eligible in the sense of the spec's `NotEligible`:
the page already signals a prior application, the quick-apply affordance
is absent, or the affordance is not the quick-apply variant. -/
def notEligiblePage (p : JobPageObs) : Prop :=
  (∃ t, p.already_applied = some t ∧ hasSub "applied" (strLower t) = true)
    ∨ p.easy_apply_btn = none
    ∨ (∃ t, p.easy_apply_btn = some t ∧ hasSub "easy apply" (strLower t) = false)

/-! ## Resume selector theorems -/

/-- C8: When exactly one resume profile is loaded, `select_resume` returns
that profile's path for every input — including empty title, description
and organization — taking the single-profile shortcut that performs no
scoring. -/
theorem select_resume_single_profile (rs : ResumeSelector) (p : ResumeProfile)
    (job_title : String) (job_description company : Option String)
    (h : rs.resume_profiles = [p]) :
    select_resume rs job_title job_description company =
      some (pathOf rs.resumes_dir p.file) := by
  simp [select_resume, h]

/-- The `backend` profile of `_load_resume_profiles`, abbreviated to one
keyword. -/
def backendProfile : ResumeProfile :=
  { name := "backend", file := "Backend.pdf", keywords := ["python"], weight := 1 }

/-- The `embedded` profile of `_load_resume_profiles`, abbreviated to one
keyword. -/
def embeddedProfile : ResumeProfile :=
  { name := "embedded", file := "embedded.pdf", keywords := ["firmware"], weight := 1 }

/-- A selector loaded with the single `backend` profile. -/
def singleSelector : ResumeSelector :=
  { resumes_dir := "./resumes", resume_profiles := [backendProfile] }

/-- A selector loaded with both default profiles. -/
def twoSelector : ResumeSelector :=
  { resumes_dir := "./resumes", resume_profiles := [backendProfile, embeddedProfile] }

/-- Witness for `select_resume_single_profile` at a concrete selector and
empty inputs. -/
theorem select_resume_single_profile_witness :
    singleSelector.resume_profiles = [backendProfile] ∧
      select_resume singleSelector "" none none =
        some (pathOf "./resumes" "Backend.pdf") :=
  ⟨rfl, select_resume_single_profile singleSelector backendProfile "" none none rfl⟩

/-- C7: When at least one profile is loaded and no profile scores above
zero on the job's text, `select_resume` falls back to the first-loaded
profile's path (and, being a pure function, does so identically on every
call with the same inputs). -/
theorem select_resume_zero_score_fallback (rs : ResumeSelector)
    (p : ResumeProfile) (rest : List ResumeProfile)
    (job_title : String) (job_description company : Option String)
    (h : rs.resume_profiles = p :: rest)
    (hscore : ∀ q ∈ rs.resume_profiles,
      profileScore (searchTextOf job_title job_description company) q ≤ 0) :
    select_resume rs job_title job_description company =
      some (pathOf rs.resumes_dir p.file) := by
  rw [h] at hscore
  obtain ⟨dir, prof⟩ := rs
  replace h : prof = p :: rest := h
  subst h
  cases rest with
  | nil => simp [select_resume]
  | cons q qs =>
    have hany : (((p :: q :: qs).map
        (fun r => (r, profileScore (searchTextOf job_title job_description company) r))).any
          (fun x => decide (0 < x.2))) = false := by
      rw [List.any_eq_false]
      intro x hx
      rw [List.mem_map] at hx
      obtain ⟨r, hr, rfl⟩ := hx
      simpa using not_lt_of_le (hscore r hr)
    simp only [select_resume, List.isEmpty_cons, Bool.false_eq_true, if_false]
    rw [hany]
    simp

/-- Witness for `select_resume_zero_score_fallback`: two loaded profiles,
a job text matching no keyword of either. -/
theorem select_resume_zero_score_fallback_witness :
    twoSelector.resume_profiles = backendProfile :: [embeddedProfile] ∧
      (∀ q ∈ twoSelector.resume_profiles,
        profileScore (searchTextOf "Barista" (some "coffee shop") (some "Cafe")) q ≤ 0) ∧
      select_resume twoSelector "Barista" (some "coffee shop") (some "Cafe") =
        some (pathOf "./resumes" "Backend.pdf") := by
  have hb : profileScore (searchTextOf "Barista" (some "coffee shop") (some "Cafe"))
      backendProfile ≤ 0 := by
    have h0 : (backendProfile.keywords.filter
        (fun k => hasSub (strLower k)
          (searchTextOf "Barista" (some "coffee shop") (some "Cafe")))).length = 0 := by
      rfl
    rw [profileScore, h0]
    norm_num
  have he : profileScore (searchTextOf "Barista" (some "coffee shop") (some "Cafe"))
      embeddedProfile ≤ 0 := by
    have h0 : (embeddedProfile.keywords.filter
        (fun k => hasSub (strLower k)
          (searchTextOf "Barista" (some "coffee shop") (some "Cafe")))).length = 0 := by
      rfl
    rw [profileScore, h0]
    norm_num
  have hscore : ∀ q ∈ twoSelector.resume_profiles,
      profileScore (searchTextOf "Barista" (some "coffee shop") (some "Cafe")) q ≤ 0 := by
    intro q hq
    simp only [twoSelector, List.mem_cons, List.not_mem_nil, or_false] at hq
    rcases hq with rfl | rfl
    · exact hb
    · exact he
  exact ⟨rfl, hscore,
    select_resume_zero_score_fallback twoSelector backendProfile [embeddedProfile]
      "Barista" (some "coffee shop") (some "Cafe") rfl hscore⟩

/-! ## Modal-loop termination -/

/-- A form collaborator that never presents a success marker and never
exposes a recognized action control: any success-indicator or
modal-content text fails the success test, and there is no submit/primary
button and no next button. -/
def hostileObs (o : ModalObs) : Prop :=
  (∀ t, o.success_indicator = some t → isSuccessText t = false)
    ∧ (∀ t, o.submit_btn = some t →
        hasSub "submit" (strLower t) = false ∧
        hasSub "next" (strLower t) = false ∧
        hasSub "continue" (strLower t) = false ∧
        hasSub "review" (strLower t) = false)
    ∧ o.next_btn = false
    ∧ (∀ c, o.modal_content = some c →
        hasSub "application sent" (strLower c) = false)

/-- A hostile observation makes one loop iteration fall through. -/
theorem modalIter_hostile (o : ModalObs) (h : hostileObs o) :
    modalIter o = none := by
  obtain ⟨hsucc, hsubmit, hnext, hmodal⟩ := h
  have htail : modalIterTail o = none := by
    unfold modalIterTail
    rw [hnext]
    cases hd : o.dismiss_btn with
    | false => simp
    | true =>
      cases hmc : o.modal_content with
      | none => simp
      | some c => simp [hmodal c hmc]
  unfold modalIter
  have hsi : (match o.success_indicator with
      | some t => isSuccessText t
      | none => false) = false := by
    cases hs : o.success_indicator with
    | none => rfl
    | some t => exact hsucc t hs
  rw [hsi]
  simp only [Bool.false_eq_true, if_false]
  cases hsb : o.submit_btn with
  | none => exact htail
  | some t =>
    obtain ⟨h1, h2, h3, h4⟩ := hsubmit t hsb
    show (if hasSub "submit" (strLower t) = true then some true
        else if (hasSub "next" (strLower t) || hasSub "continue" (strLower t)) = true
          then none
        else if hasSub "review" (strLower t) = true then none
        else modalIterTail o) = none
    rw [h1, h2, h3, h4]
    simp [htail]

/-- If every iteration falls through, the loop burns all its fuel and
returns `false`. -/
theorem modalLoop_none (obs : Nat → ModalObs)
    (h : ∀ i, modalIter (obs i) = none) :
    ∀ fuel stepsDone, modalLoop obs stepsDone fuel = false := by
  intro fuel
  induction fuel with
  | zero => intro stepsDone; rfl
  | succ n ih =>
    intro stepsDone
    unfold modalLoop
    rw [h (stepsDone + 1)]
    exact ih (stepsDone + 1)

/-- C2: For every form collaborator that never presents a success marker
and never exposes a recognized action control, the form-driving loop of
the applier terminates (it is a total function on `max_steps = 10` fuel)
and yields `false`, the exhausted outcome, rather than looping
indefinitely. -/
theorem complete_application_modal_hostile_exhausts (obs : Nat → ModalObs)
    (h : ∀ i, hostileObs (obs i)) :
    complete_application_modal obs = false :=
  modalLoop_none obs (fun i => modalIter_hostile (obs i) (h i)) max_steps 0

/-- The blank collaborator: every page query comes back empty on every
iteration. -/
def blankObs : Nat → ModalObs :=
  fun _ =>
    { success_indicator := none, submit_btn := none, next_btn := false,
      dismiss_btn := false, modal_content := none, error_elem := none }

/-- Witness for `complete_application_modal_hostile_exhausts` at the
blank collaborator that shows nothing on any iteration. -/
theorem complete_application_modal_hostile_exhausts_witness :
    (∀ i : Nat, hostileObs (blankObs i)) ∧
      complete_application_modal blankObs = false := by
  have h : ∀ i : Nat, hostileObs (blankObs i) := by
    intro i
    refine ⟨?_, ?_, rfl, ?_⟩
    · intro t ht; cases ht
    · intro t ht; cases ht
    · intro c hc; cases hc
  exact ⟨h, complete_application_modal_hostile_exhausts blankObs h⟩

/-! ## Application-table theorems -/

/-- The success-terminal test agrees with membership in
{applied, easy_apply}. -/
theorem isSuccess_iff (st : ApplicationStatus) :
    isSuccess st = true ↔
      (st = ApplicationStatus.applied ∨ st = ApplicationStatus.easy_apply) := by
  cases st <;> decide

/-- C10 helper: every application falls in exactly one status bucket, so
the total is the sum over all six statuses. -/
theorem length_eq_sum_countStatus (apps : List Application) :
    apps.length =
      countStatus apps ApplicationStatus.pending
        + countStatus apps ApplicationStatus.applied
        + countStatus apps ApplicationStatus.easy_apply
        + countStatus apps ApplicationStatus.external
        + countStatus apps ApplicationStatus.skipped
        + countStatus apps ApplicationStatus.failed := by
  induction apps with
  | nil => rfl
  | cons a l ih =>
    simp only [countStatus, List.filter_cons] at ih ⊢
    cases h : a.status <;> simp [h] <;> omega

/-- C10: `get_application_stats` has no bucket for the `external` status,
so any store holding an application in that status has strictly more
total applications than the sum of the five per-status counts returned. -/
theorem get_application_stats_misses_external (s : Store) (a : Application)
    (ha : a ∈ s.applications) (hext : a.status = ApplicationStatus.external) :
    (get_application_stats s).applied + (get_application_stats s).easy_apply
        + (get_application_stats s).pending + (get_application_stats s).skipped
        + (get_application_stats s).failed
      < (get_application_stats s).total_applications := by
  have hsum := length_eq_sum_countStatus s.applications
  have hpos : 0 < countStatus s.applications ApplicationStatus.external := by
    refine List.length_pos_of_mem (a := a) ?_
    exact List.mem_filter.mpr ⟨ha, by simp [hext]⟩
  simp only [get_application_stats]
  omega

/-- A store holding one application parked in the `external` status. -/
def externalStore : Store :=
  { jobs := [], nextJobId := 1, nextAppId := 2, clock := 1,
    applications := [{ id := 1, job_id := 1, status := ApplicationStatus.external,
                       applied_at := none, cover_letter := none, resume_used := none,
                       notes := none, error_message := none }] }

/-- Witness for `get_application_stats_misses_external` at a one-row
store. -/
theorem get_application_stats_misses_external_witness :
    (externalStore.applications.head? =
        some { id := 1, job_id := 1, status := ApplicationStatus.external,
               applied_at := none, cover_letter := none, resume_used := none,
               notes := none, error_message := none }) ∧
      (get_application_stats externalStore).applied
          + (get_application_stats externalStore).easy_apply
          + (get_application_stats externalStore).pending
          + (get_application_stats externalStore).skipped
          + (get_application_stats externalStore).failed
        < (get_application_stats externalStore).total_applications :=
  ⟨rfl,
   get_application_stats_misses_external externalStore
     { id := 1, job_id := 1, status := ApplicationStatus.external,
       applied_at := none, cover_letter := none, resume_used := none,
       notes := none, error_message := none }
     (by decide) rfl⟩

/-- C9: `update_application_status` never clears `applied_at`. In a store
whose application ids are distinct (as autoincrement guarantees), every
pre-existing row keeps a corresponding row with the same id for which a
non-null `applied_at` stays non-null, and a non-success new status leaves
`applied_at` exactly as it was. -/
theorem update_application_status_preserves_applied_at (s : Store)
    (application_id : Nat) (status : ApplicationStatus) (err : Option String)
    (hids : (s.applications.map (fun a => a.id)).Nodup)
    (a : Application) (ha : a ∈ s.applications) :
    ∃ a' ∈ (update_application_status s application_id status err).2.applications,
      a'.id = a.id ∧
      (a.applied_at ≠ none → a'.applied_at ≠ none) ∧
      (status ≠ ApplicationStatus.applied → status ≠ ApplicationStatus.easy_apply →
        a'.applied_at = a.applied_at) := by
  unfold update_application_status
  cases hfind : s.applications.find? (fun b => b.id == application_id) with
  | none =>
    exact ⟨a, ha, rfl, fun h => h, fun _ _ => rfl⟩
  | some a₀ =>
    have ha₀mem : a₀ ∈ s.applications := List.mem_of_find?_eq_some hfind
    have ha₀id := List.find?_some hfind
    simp only [beq_iff_eq] at ha₀id
    simp only
    by_cases hid : a.id = application_id
    · have haeq : a = a₀ := by
        refine List.inj_on_of_nodup_map hids ha ha₀mem ?_
        rw [hid, ha₀id]
      refine ⟨updatedApp a₀ status err s.clock, ?_, ?_, ?_, ?_⟩
      · refine List.mem_map.mpr ⟨a, ha, ?_⟩
        simp [hid]
      · rw [haeq]; simp [updatedApp]
      · intro hnn
        rw [updatedApp]
        simp only
        cases hsu : isSuccess status with
        | true => simp
        | false => rw [haeq] at hnn; simpa using hnn
      · intro h1 h2
        have hsu : isSuccess status = false := by
          cases status <;> simp_all [isSuccess]
        rw [updatedApp, haeq]
        simp [hsu]
    · refine ⟨a, ?_, rfl, fun h => h, fun _ _ => rfl⟩
      refine List.mem_map.mpr ⟨a, ha, ?_⟩
      simp [hid]

/-- A one-row store whose application already carries `applied_at`. -/
def submittedStore : Store :=
  { jobs := [], nextJobId := 1, nextAppId := 2, clock := 1,
    applications := [{ id := 1, job_id := 1, status := ApplicationStatus.easy_apply,
                       applied_at := some 0, cover_letter := none, resume_used := none,
                       notes := none, error_message := none }] }

/-- Witness for `update_application_status_preserves_applied_at`: marking
the already-submitted row `failed` keeps its `applied_at`. -/
theorem update_application_status_preserves_applied_at_witness :
    (submittedStore.applications.map (fun a => a.id)).Nodup ∧
      ∃ a' ∈ (update_application_status submittedStore 1
          ApplicationStatus.failed none).2.applications,
        a'.id = 1 ∧ (some 0 ≠ (none : Option Nat) → a'.applied_at ≠ none) ∧
        (ApplicationStatus.failed ≠ ApplicationStatus.applied →
          ApplicationStatus.failed ≠ ApplicationStatus.easy_apply →
          a'.applied_at = some 0) := by
  have h := update_application_status_preserves_applied_at submittedStore 1
    ApplicationStatus.failed none (by decide)
    { id := 1, job_id := 1, status := ApplicationStatus.easy_apply,
      applied_at := some 0, cover_letter := none, resume_used := none,
      notes := none, error_message := none } (by decide)
  exact ⟨by decide, h⟩

/-- C6 (amended): `update_application_status` on an unknown id returns
`none` with the store untouched (no error is raised); on a known id with
a success-terminal status the returned row carries a freshly set
`applied_at`. -/
theorem update_application_status_unknown_id_and_success (s : Store)
    (application_id : Nat) (status : ApplicationStatus) (err : Option String) :
    (s.applications.find? (fun a => a.id == application_id) = none →
      update_application_status s application_id status err = (none, s)) ∧
    (∀ a₀, s.applications.find? (fun a => a.id == application_id) = some a₀ →
      (status = ApplicationStatus.applied ∨ status = ApplicationStatus.easy_apply) →
      ∃ a', (update_application_status s application_id status err).1 = some a' ∧
        a'.applied_at = some s.clock) := by
  constructor
  · intro hnone
    unfold update_application_status
    rw [hnone]
  · intro a₀ hfind hsucc
    have hsu : isSuccess status = true := (isSuccess_iff status).mpr hsucc
    unfold update_application_status
    rw [hfind]
    exact ⟨updatedApp a₀ status err s.clock, rfl, by rw [updatedApp]; simp [hsu]⟩

/-- Witness for `update_application_status_unknown_id_and_success`: the
empty store has no row with id 1, and updating `submittedStore`'s row to
`applied` stamps `applied_at` with the current clock. -/
theorem update_application_status_unknown_id_and_success_witness :
    (emptyStore.applications.find? (fun a => a.id == 1) = none ∧
      update_application_status emptyStore 1 ApplicationStatus.failed none =
        (none, emptyStore)) ∧
    (submittedStore.applications.find? (fun a => a.id == 1) =
        some { id := 1, job_id := 1, status := ApplicationStatus.easy_apply,
               applied_at := some 0, cover_letter := none, resume_used := none,
               notes := none, error_message := none } ∧
      ∃ a', (update_application_status submittedStore 1
          ApplicationStatus.applied none).1 = some a' ∧
        a'.applied_at = some submittedStore.clock) := by
  constructor
  · exact ⟨by decide,
      (update_application_status_unknown_id_and_success emptyStore 1
        ApplicationStatus.failed none).1 (by decide)⟩
  · exact ⟨by decide,
      (update_application_status_unknown_id_and_success submittedStore 1
        ApplicationStatus.applied none).2
        { id := 1, job_id := 1, status := ApplicationStatus.easy_apply,
          applied_at := some 0, cover_letter := none, resume_used := none,
          notes := none, error_message := none }
        (by decide) (Or.inl rfl)⟩

/-- C6 counterexample: writing to a non-existent application id does not
fail — the call returns `none` and leaves the store unchanged, so no
`NotFound` error reaches the caller. -/
theorem update_application_status_unknown_id_is_silent :
    update_application_status emptyStore 1 ApplicationStatus.failed none =
      (none, emptyStore) := by
  decide

/-! ## Submitted-at invariant (C3) -/

/-- One application operation preserves the one-direction invariant:
every row in a success-terminal status carries a non-null `applied_at`. -/
theorem applyAppOp_submitted_invariant (s : Store) (op : AppOp)
    (hinv : ∀ a ∈ s.applications,
      (a.status = ApplicationStatus.applied ∨ a.status = ApplicationStatus.easy_apply) →
      a.applied_at ≠ none) :
    ∀ a ∈ (applyAppOp s op).applications,
      (a.status = ApplicationStatus.applied ∨ a.status = ApplicationStatus.easy_apply) →
      a.applied_at ≠ none := by
  cases op with
  | create jid st cl ru n =>
    intro a ha hst
    simp only [applyAppOp, create_application, List.mem_append,
      List.mem_singleton] at ha
    rcases ha with ha | rfl
    · exact hinv a ha hst
    · have hsu : isSuccess st = true := (isSuccess_iff st).mpr hst
      simp [hsu]
  | setStatus aid st err =>
    intro a ha hst
    simp only [applyAppOp] at ha
    unfold update_application_status at ha
    cases hfind : s.applications.find? (fun b => b.id == aid) with
    | none =>
      rw [hfind] at ha
      exact hinv a ha hst
    | some a₀ =>
      rw [hfind] at ha
      simp only [List.mem_map] at ha
      obtain ⟨b, _, hfb⟩ := ha
      by_cases hb : (b.id == aid) = true
      · rw [if_pos hb] at hfb
        subst hfb
        simp only [updatedApp] at hst ⊢
        have hsu : isSuccess st = true := (isSuccess_iff st).mpr hst
        simp [hsu]
      · rw [if_neg hb] at hfb
        subst hfb
        exact hinv b (by assumption) hst

/-- C3 (amended): starting from any store satisfying it, every sequence of
`create_application` / `update_application_status` operations preserves
the forward direction of the invariant — a row whose status is a success
terminal has a non-null `applied_at`. (The converse direction of the
spec's iff fails: see the counterexample.) -/
theorem runAppOps_submitted_invariant (s : Store) (ops : List AppOp)
    (hinv : ∀ a ∈ s.applications,
      (a.status = ApplicationStatus.applied ∨ a.status = ApplicationStatus.easy_apply) →
      a.applied_at ≠ none)
    (a : Application) (ha : a ∈ (runAppOps s ops).applications)
    (hst : a.status = ApplicationStatus.applied ∨ a.status = ApplicationStatus.easy_apply) :
    a.applied_at ≠ none := by
  induction ops generalizing s with
  | nil => exact hinv a ha hst
  | cons op rest ih =>
    exact ih (applyAppOp s op) (applyAppOp_submitted_invariant s op hinv) ha

/-- The `job_data` dictionary used by the concrete scenarios. -/
def jd42 : JobData :=
  { linkedin_job_id := "42", title := "Backend Engineer", company := "Acme",
    description := none, is_easy_apply := true }

/-- Witness for `runAppOps_submitted_invariant`: one `create` in status
`applied` from the empty store. -/
theorem runAppOps_submitted_invariant_witness :
    (∀ a ∈ emptyStore.applications,
      (a.status = ApplicationStatus.applied ∨ a.status = ApplicationStatus.easy_apply) →
      a.applied_at ≠ none) ∧
    ({ id := 1, job_id := 1, status := ApplicationStatus.applied,
       applied_at := some 0, cover_letter := none, resume_used := none,
       notes := none, error_message := none } : Application) ∈
        (runAppOps emptyStore
          [AppOp.create 1 ApplicationStatus.applied none none none]).applications ∧
    ({ id := 1, job_id := 1, status := ApplicationStatus.applied,
       applied_at := some 0, cover_letter := none, resume_used := none,
       notes := none, error_message := none } : Application).applied_at ≠ none := by
  refine ⟨by decide, by decide, ?_⟩
  exact runAppOps_submitted_invariant emptyStore
    [AppOp.create 1 ApplicationStatus.applied none none none]
    (by decide) _ (by decide) (Or.inl rfl)

/-- The store after discovering one listing, applying to it successfully,
then overwriting the row's status with `failed`. -/
def c3store : Store :=
  runAppOps (add_job emptyStore jd42).2
    [AppOp.create 1 ApplicationStatus.applied none none none,
     AppOp.setStatus 1 ApplicationStatus.failed none]

/-- C3 counterexample: after a success-terminal status is overwritten by
`failed`, the row keeps its non-null `applied_at` while its status is no
longer a success terminal, so "submitted_at is non-null iff status ∈
{applied, quick_applied}" fails on this store. -/
theorem submitted_iff_status_fails :
    ¬ (∀ a ∈ c3store.applications,
        (a.applied_at ≠ none ↔
          (a.status = ApplicationStatus.applied ∨
            a.status = ApplicationStatus.easy_apply))) := by
  decide

/-! ## Not-eligible listings are marked failed (C5) -/

/-- A not-eligible page makes `apply_to_job` return `false` — the same
outcome as a failed attempt. -/
theorem apply_to_job_not_eligible (p : JobPageObs) (h : notEligiblePage p) :
    apply_to_job p = false := by
  unfold apply_to_job
  rcases h with ⟨t, ht, hsub⟩ | hnone | ⟨t, ht, hsub⟩
  · cases p.raises <;> simp [ht, hsub]
  · cases p.raises
    · cases ha : p.already_applied with
      | none => simp [hnone]
      | some u => cases hs : hasSub "applied" (strLower u) <;> simp [hnone, hs]
    · simp
  · cases p.raises
    · cases ha : p.already_applied with
      | none => simp [ht, hsub]
      | some u => cases hs : hasSub "applied" (strLower u) <;> simp [ht, hsub, hs]
    · simp

/-- C5 (amended): when `apply_to_job` finds the listing not eligible, the
batch runner marks the listing's Application row `failed`, not `skipped`:
`apply_to_job` collapses not-eligible and failure into one `false`
outcome, and `process_job` writes `failed` for every `false`. -/
theorem process_job_not_eligible_marks_failed (s : Store) (job : Job)
    (page : JobPageObs) (resume_to_use : Option String)
    (hfresh : ∀ a ∈ s.applications, a.id ≠ s.nextAppId)
    (h : notEligiblePage page) :
    ∃ a ∈ (process_job s job page resume_to_use).applications,
      a.id = s.nextAppId ∧ a.job_id = job.id ∧
      a.status = ApplicationStatus.failed ∧
      a.status ≠ ApplicationStatus.skipped := by
  unfold process_job
  rw [apply_to_job_not_eligible page h]
  simp only [Bool.false_eq_true, if_false]
  set app : Application :=
    (create_application s job.id ApplicationStatus.pending none resume_to_use none).1
    with happ
  have happid : app.id = s.nextAppId := rfl
  have happjob : app.job_id = job.id := rfl
  have hfind :
      ((create_application s job.id ApplicationStatus.pending none
          resume_to_use none).2.applications.find? (fun b => b.id == app.id)) =
        some app := by
    show ((s.applications ++ [app]).find? (fun b => b.id == app.id)) = some app
    rw [List.find?_append]
    have h1 : s.applications.find? (fun b => b.id == app.id) = none := by
      rw [List.find?_eq_none]
      intro x hx
      simp only [beq_iff_eq]
      rw [happid]
      exact hfresh x hx
    rw [h1]
    simp
  unfold update_application_status
  rw [hfind]
  refine ⟨updatedApp app ApplicationStatus.failed
    (some "Application could not be completed")
    (create_application s job.id ApplicationStatus.pending none resume_to_use none).2.clock,
    ?_, ?_, ?_, ?_, ?_⟩
  · simp only
    refine List.mem_map.mpr ⟨app, ?_, ?_⟩
    · show app ∈ s.applications ++ [app]
      simp
    · simp
  · rw [updatedApp]
    exact happid
  · rw [updatedApp]
    exact happjob
  · rfl
  · simp [updatedApp]

/-- A job page with no Easy Apply button at all. -/
def noButtonPage : JobPageObs :=
  { already_applied := none, easy_apply_btn := none, modal := blankObs,
    raises := false }

/-- Witness for `process_job_not_eligible_marks_failed` at a store holding
one freshly discovered listing and a page without the affordance. -/
theorem process_job_not_eligible_marks_failed_witness :
    (∀ a ∈ (add_job emptyStore jd42).2.applications,
        a.id ≠ (add_job emptyStore jd42).2.nextAppId) ∧
      notEligiblePage noButtonPage ∧
      ∃ a ∈ (process_job (add_job emptyStore jd42).2 (mkJob emptyStore jd42)
          noButtonPage none).applications,
        a.id = (add_job emptyStore jd42).2.nextAppId ∧
        a.job_id = (mkJob emptyStore jd42).id ∧
        a.status = ApplicationStatus.failed ∧
        a.status ≠ ApplicationStatus.skipped := by
  refine ⟨by decide, Or.inr (Or.inl rfl), ?_⟩
  exact process_job_not_eligible_marks_failed (add_job emptyStore jd42).2
    (mkJob emptyStore jd42) noButtonPage none (by decide) (Or.inr (Or.inl rfl))

/-- The store after processing the discovered listing against the page
without an Easy Apply button. -/
def c5store : Store :=
  process_job (add_job emptyStore jd42).2 (mkJob emptyStore jd42) noButtonPage none

/-- C5 counterexample: on a not-eligible page (no quick-apply affordance)
the Application row ends up `failed`; no row is ever marked `skipped`. -/
theorem not_eligible_row_is_failed_not_skipped :
    notEligiblePage noButtonPage ∧
      (∃ a ∈ c5store.applications, a.status = ApplicationStatus.failed) ∧
      ¬ (∃ a ∈ c5store.applications, a.status = ApplicationStatus.skipped) :=
  ⟨Or.inr (Or.inl rfl), by decide, by decide⟩

/-! ## Deduplication (C1) -/

/-- `job_exists` is the existence of a stored row with that id. -/
theorem job_exists_iff (s : Store) (lid : String) :
    job_exists s lid = true ↔ ∃ j ∈ s.jobs, j.linkedin_job_id = lid := by
  simp [job_exists, List.any_eq_true]

/-- The deduplication invariant: all stored `linkedin_job_id`s are
pairwise distinct. -/
def UniqueIds (s : Store) : Prop :=
  s.jobs.Pairwise (fun a b => a.linkedin_job_id ≠ b.linkedin_job_id)

/-- Inserting a fresh id keeps the ids pairwise distinct. -/
theorem insertJob_unique (s : Store) (jd : JobData)
    (hnew : job_exists s jd.linkedin_job_id = false) (hu : UniqueIds s) :
    UniqueIds (insertJob s jd) := by
  unfold UniqueIds insertJob
  rw [List.pairwise_append]
  refine ⟨hu, List.pairwise_singleton _ _, ?_⟩
  intro a ha b hb
  rw [List.mem_singleton] at hb
  subst hb
  intro heq
  have : job_exists s jd.linkedin_job_id = true :=
    (job_exists_iff s jd.linkedin_job_id).mpr ⟨a, ha, heq⟩
  rw [this] at hnew
  cases hnew

/-- Growing the table never makes an existing id disappear. -/
theorem job_exists_insertJob (s : Store) (jd : JobData) (lid : String)
    (h : job_exists s lid = true) :
    job_exists (insertJob s jd) lid = true := by
  rw [job_exists_iff] at h ⊢
  obtain ⟨j, hj, hjid⟩ := h
  exact ⟨j, by simp [insertJob, hj], hjid⟩

/-- `add_job` preserves the deduplication invariant. -/
theorem add_job_unique (s : Store) (jd : JobData) (hu : UniqueIds s) :
    UniqueIds (add_job s jd).2 := by
  unfold add_job
  cases hex : job_exists s jd.linkedin_job_id with
  | true => exact hu
  | false => exact insertJob_unique s jd hex hu

/-- `add_jobs_batch` preserves the deduplication invariant: each item is
checked against the table as grown so far. -/
theorem add_jobs_batch_unique (jds : List JobData) :
    ∀ s : Store, UniqueIds s → UniqueIds (add_jobs_batch s jds).2 := by
  induction jds with
  | nil => intro s hu; exact hu
  | cons jd rest ih =>
    intro s hu
    unfold add_jobs_batch
    cases hex : job_exists s jd.linkedin_job_id with
    | true => exact ih s hu
    | false => exact ih (insertJob s jd) (insertJob_unique s jd hex hu)

/-- Every store reachable by inserts from the empty store satisfies the
deduplication invariant. -/
theorem runInserts_unique (ops : List InsertOp) :
    ∀ s : Store, UniqueIds s → UniqueIds (runInserts s ops) := by
  induction ops with
  | nil => intro s hu; exact hu
  | cons op rest ih =>
    intro s hu
    cases op with
    | single jd => exact ih (add_job s jd).2 (add_job_unique s jd hu)
    | batch jds => exact ih (add_jobs_batch s jds).2 (add_jobs_batch_unique jds s hu)

/-- With pairwise-distinct ids, at most one stored row matches any id. -/
theorem count_le_one_of_pairwise (lid : String) (l : List Job)
    (h : l.Pairwise (fun a b => a.linkedin_job_id ≠ b.linkedin_job_id)) :
    (l.filter (fun j => j.linkedin_job_id == lid)).length ≤ 1 := by
  induction l with
  | nil => simp
  | cons j t ih =>
    rw [List.pairwise_cons] at h
    rw [List.filter_cons]
    by_cases hj : j.linkedin_job_id = lid
    · have ht : t.filter (fun j => j.linkedin_job_id == lid) = [] := by
        rw [List.filter_eq_nil_iff]
        intro b hb
        simp only [beq_iff_eq]
        intro hb'
        exact h.1 b hb (by rw [hj, hb'])
      simp [hj, ht]
    · rw [if_neg (by simp [hj])]
      exact ih h.2

/-- A present id is matched by at least one stored row. -/
theorem count_pos_of_exists (s : Store) (lid : String)
    (h : job_exists s lid = true) : 1 ≤ countJobsWithId s lid := by
  rw [job_exists_iff] at h
  obtain ⟨j, hj, hjid⟩ := h
  exact List.length_pos_of_mem (List.mem_filter.mpr ⟨hj, by simp [hjid]⟩)

/-- Under the invariant, a present id is stored exactly once. -/
theorem count_eq_one (s : Store) (lid : String) (hu : UniqueIds s)
    (h : job_exists s lid = true) : countJobsWithId s lid = 1 :=
  Nat.le_antisymm (count_le_one_of_pairwise lid s.jobs hu) (count_pos_of_exists s lid h)

/-- Batch insert against a store already holding `lid`: the returned rows
never carry `lid`, the number of stored rows with `lid` is unchanged, and
`lid` remains present. -/
theorem add_jobs_batch_existing (lid : String) (jds : List JobData) :
    ∀ s : Store, job_exists s lid = true →
      (∀ j ∈ (add_jobs_batch s jds).1, j.linkedin_job_id ≠ lid) ∧
      countJobsWithId (add_jobs_batch s jds).2 lid = countJobsWithId s lid ∧
      job_exists (add_jobs_batch s jds).2 lid = true := by
  induction jds with
  | nil => intro s hex; exact ⟨by simp [add_jobs_batch], rfl, hex⟩
  | cons jd rest ih =>
    intro s hex
    unfold add_jobs_batch
    cases hjd : job_exists s jd.linkedin_job_id with
    | true => exact ih s hex
    | false =>
      have hne : jd.linkedin_job_id ≠ lid := by
        intro heq
        rw [heq, hex] at hjd
        cases hjd
      have hex' : job_exists (insertJob s jd) lid = true :=
        job_exists_insertJob s jd lid hex
      have hcount : countJobsWithId (insertJob s jd) lid = countJobsWithId s lid := by
        unfold countJobsWithId insertJob
        simp [List.filter_append, List.filter_cons, hne, mkJob]
      obtain ⟨ih1, ih2, ih3⟩ := ih (insertJob s jd) hex'
      refine ⟨?_, ?_, ?_⟩
      · intro j hj
        have hj' : j ∈ mkJob s jd :: (add_jobs_batch (insertJob s jd) rest).1 := hj
        rw [List.mem_cons] at hj'
        rcases hj' with rfl | hj'
        · exact hne
        · exact ih1 j hj'
      · show countJobsWithId (add_jobs_batch (insertJob s jd) rest).2 lid =
          countJobsWithId s lid
        rw [ih2, hcount]
      · exact ih3

/-- C1: in any store built by a sequence of single and batch inserts from
the empty store, inserting a listing whose `linkedin_job_id` is already
stored leaves exactly one stored row for that id and signals the
duplicate without error: `add_job` returns `none`, and `add_jobs_batch`
omits every such duplicate from the returned list of newly added rows. -/
theorem duplicate_insert_is_noop (ops : List InsertOp) (jd : JobData)
    (jds : List JobData)
    (hex : job_exists (runInserts emptyStore ops) jd.linkedin_job_id = true) :
    (add_job (runInserts emptyStore ops) jd).1 = none ∧
    countJobsWithId (add_job (runInserts emptyStore ops) jd).2
      jd.linkedin_job_id = 1 ∧
    (∀ j ∈ (add_jobs_batch (runInserts emptyStore ops) jds).1,
      j.linkedin_job_id ≠ jd.linkedin_job_id) ∧
    countJobsWithId (add_jobs_batch (runInserts emptyStore ops) jds).2
      jd.linkedin_job_id = 1 := by
  have hu : UniqueIds (runInserts emptyStore ops) :=
    runInserts_unique ops emptyStore (List.Pairwise.nil)
  have h1 : countJobsWithId (runInserts emptyStore ops) jd.linkedin_job_id = 1 :=
    count_eq_one _ _ hu hex
  obtain ⟨hb1, hb2, _⟩ :=
    add_jobs_batch_existing jd.linkedin_job_id jds (runInserts emptyStore ops) hex
  refine ⟨?_, ?_, hb1, by rw [hb2, h1]⟩
  · unfold add_job
    rw [hex]
    rfl
  · unfold add_job
    rw [hex]
    exact h1

/-- Witness for `duplicate_insert_is_noop`: discover one listing, then
re-insert the same dictionary singly and in a batch. -/
theorem duplicate_insert_is_noop_witness :
    job_exists (runInserts emptyStore [InsertOp.single jd42])
        jd42.linkedin_job_id = true ∧
      (add_job (runInserts emptyStore [InsertOp.single jd42]) jd42).1 = none ∧
      countJobsWithId
        (add_jobs_batch (runInserts emptyStore [InsertOp.single jd42]) [jd42]).2
        jd42.linkedin_job_id = 1 := by
  have h := duplicate_insert_is_noop [InsertOp.single jd42] jd42 [jd42] (by decide)
  exact ⟨by decide, h.1, h.2.2.2⟩

/-! ## Eligibility query (C4) -/

/-- Descending insertion is a permutation of consing. -/
theorem insertDesc_perm (j : Job) (l : List Job) :
    (insertDesc j l).Perm (j :: l) := by
  induction l with
  | nil => exact List.Perm.refl _
  | cons k ks ih =>
    unfold insertDesc
    by_cases h : k.scraped_at ≤ j.scraped_at
    · rw [if_pos h]
    · rw [if_neg h]
      exact (ih.cons k).trans (List.Perm.swap j k ks)

/-- The descending sort permutes its input. -/
theorem sortByScrapedDesc_perm (l : List Job) :
    (sortByScrapedDesc l).Perm l := by
  induction l with
  | nil => exact List.Perm.refl _
  | cons j js ih =>
    exact (insertDesc_perm j (sortByScrapedDesc js)).trans (ih.cons j)

/-- Membership in a descending insertion. -/
theorem mem_insertDesc (a j : Job) (l : List Job) :
    a ∈ insertDesc j l ↔ a = j ∨ a ∈ l := by
  rw [(insertDesc_perm j l).mem_iff, List.mem_cons]

/-- Descending insertion into a descending-sorted list stays sorted. -/
theorem pairwise_insertDesc (j : Job) (l : List Job)
    (h : l.Pairwise (fun a b => b.scraped_at ≤ a.scraped_at)) :
    (insertDesc j l).Pairwise (fun a b => b.scraped_at ≤ a.scraped_at) := by
  induction l with
  | nil => exact List.pairwise_singleton _ _
  | cons k ks ih =>
    rw [List.pairwise_cons] at h
    unfold insertDesc
    by_cases hle : k.scraped_at ≤ j.scraped_at
    · rw [if_pos hle, List.pairwise_cons]
      refine ⟨?_, List.pairwise_cons.mpr h⟩
      intro b hb
      rw [List.mem_cons] at hb
      rcases hb with rfl | hb
      · exact hle
      · exact le_trans (h.1 b hb) hle
    · rw [if_neg hle, List.pairwise_cons]
      refine ⟨?_, ih h.2⟩
      intro b hb
      rw [mem_insertDesc] at hb
      rcases hb with rfl | hb
      · exact le_of_not_le hle
      · exact h.1 b hb

/-- The descending sort is sorted by `scraped_at` descending. -/
theorem pairwise_sortByScrapedDesc (l : List Job) :
    (sortByScrapedDesc l).Pairwise (fun a b => b.scraped_at ≤ a.scraped_at) := by
  induction l with
  | nil => exact List.Pairwise.nil
  | cons j js ih => exact pairwise_insertDesc j (sortByScrapedDesc js) ih

/-- C4: `get_unapplied_easy_apply_jobs` returns at most `limit` rows, each
a stored Easy Apply job with no application in status applied, easy_apply
or skipped; the result is ordered most-recently-scraped first; and when
the limit does not truncate (it is at least the number of stored jobs), an
Easy Apply job all of whose applications are pending or failed is
included — such listings stay retryable. -/
theorem get_unapplied_easy_apply_jobs_spec (s : Store) (limit : Nat) :
    (get_unapplied_easy_apply_jobs s limit).length ≤ limit ∧
    (∀ j ∈ get_unapplied_easy_apply_jobs s limit,
      j ∈ s.jobs ∧ j.is_easy_apply = true ∧
      ∀ a ∈ s.applications, a.job_id = j.id →
        a.status ≠ ApplicationStatus.applied ∧
        a.status ≠ ApplicationStatus.easy_apply ∧
        a.status ≠ ApplicationStatus.skipped) ∧
    (get_unapplied_easy_apply_jobs s limit).Pairwise
      (fun a b => b.scraped_at ≤ a.scraped_at) ∧
    (s.jobs.length ≤ limit →
      ∀ j ∈ s.jobs, j.is_easy_apply = true →
      (∀ a ∈ s.applications, a.job_id = j.id →
        (a.status = ApplicationStatus.pending ∨ a.status = ApplicationStatus.failed)) →
      j ∈ get_unapplied_easy_apply_jobs s limit) := by
  refine ⟨List.length_take_le _ _, ?_, ?_, ?_⟩
  · intro j hj
    have hj' := List.take_subset _ _ hj
    rw [(sortByScrapedDesc_perm _).mem_iff, List.mem_filter] at hj'
    obtain ⟨hmem, hpred⟩ := hj'
    rw [Bool.and_eq_true] at hpred
    refine ⟨hmem, hpred.1, ?_⟩
    intro a ha haid
    have hnc := hpred.2
    by_contra hcon
    push_neg at hcon
    have hatt : isAttempted a.status = true := by
      by_cases e1 : a.status = ApplicationStatus.applied
      · simp [isAttempted, e1]
      · by_cases e2 : a.status = ApplicationStatus.easy_apply
        · simp [isAttempted, e2]
        · simp [isAttempted, hcon e1 e2]
    have hin : j.id ∈ (s.applications.filter
        (fun a => isAttempted a.status)).map (fun a => a.job_id) :=
      List.mem_map.mpr ⟨a, List.mem_filter.mpr ⟨ha, hatt⟩, haid⟩
    have hcontains : ((s.applications.filter
        (fun a => isAttempted a.status)).map (fun a => a.job_id)).contains j.id =
          true :=
      List.elem_iff.mpr hin
    rw [hcontains] at hnc
    simp at hnc
  · exact (pairwise_sortByScrapedDesc _).sublist (List.take_sublist _ _)
  · intro hlim j hj heasy hretry
    have hnotmem : j.id ∉ (s.applications.filter
        (fun a => isAttempted a.status)).map (fun a => a.job_id) := by
      intro hmem
      obtain ⟨a, haf, haid⟩ := List.mem_map.mp hmem
      obtain ⟨ha, hatt⟩ := List.mem_filter.mp haf
      rcases hretry a ha haid with h | h <;> rw [h] at hatt <;> cases hatt
    have hpred : (fun j' : Job => j'.is_easy_apply &&
        !(((s.applications.filter (fun a => isAttempted a.status)).map
          (fun a => a.job_id)).contains j'.id)) j = true := by
      rw [Bool.and_eq_true, heasy]
      refine ⟨rfl, ?_⟩
      cases hcb : ((s.applications.filter (fun a => isAttempted a.status)).map
          (fun a => a.job_id)).contains j.id with
      | false => rfl
      | true => exact absurd (List.elem_iff.mp hcb) hnotmem
    have hjf : j ∈ s.jobs.filter (fun j' : Job => j'.is_easy_apply &&
        !(((s.applications.filter (fun a => isAttempted a.status)).map
          (fun a => a.job_id)).contains j'.id)) :=
      List.mem_filter.mpr ⟨hj, hpred⟩
    have hlen : (sortByScrapedDesc (s.jobs.filter (fun j' : Job => j'.is_easy_apply &&
        !(((s.applications.filter (fun a => isAttempted a.status)).map
          (fun a => a.job_id)).contains j'.id)))).length ≤ limit := by
      rw [(sortByScrapedDesc_perm _).length_eq]
      exact le_trans (List.length_filter_le _ _) hlim
    show j ∈ (sortByScrapedDesc _).take limit
    rw [List.take_of_length_le hlen, (sortByScrapedDesc_perm _).mem_iff]
    exact hjf

/-- A store with one Easy Apply listing whose only application attempt
failed. -/
def retryStore : Store :=
  { jobs := [mkJob emptyStore jd42],
    applications := [{ id := 1, job_id := 1, status := ApplicationStatus.failed,
                       applied_at := none, cover_letter := none, resume_used := none,
                       notes := none, error_message := none }],
    nextJobId := 2, nextAppId := 2, clock := 2 }

/-- Witness for `get_unapplied_easy_apply_jobs_spec`: the failed listing
is retryable and comes back from the query. -/
theorem get_unapplied_easy_apply_jobs_spec_witness :
    retryStore.jobs.length ≤ 10 ∧
      mkJob emptyStore jd42 ∈ retryStore.jobs ∧
      (mkJob emptyStore jd42).is_easy_apply = true ∧
      (∀ a ∈ retryStore.applications, a.job_id = (mkJob emptyStore jd42).id →
        (a.status = ApplicationStatus.pending ∨ a.status = ApplicationStatus.failed)) ∧
      mkJob emptyStore jd42 ∈ get_unapplied_easy_apply_jobs retryStore 10 := by
  have h := (get_unapplied_easy_apply_jobs_spec retryStore 10).2.2.2
  refine ⟨by decide, by decide, by decide, by decide, ?_⟩
  exact h (by decide) (mkJob emptyStore jd42) (by decide) (by decide) (by decide)

end SmartJobBot
